import Mathlib

/-!
# Verification of the table renderer of `cosmetics.cpp`

Shallow embedding of `utf8_display_width`, `CosmeticsDatabase::printResults`,
`CosmeticsDatabase::executeQuery` and `CosmeticsDatabase::runAll`.

Conventions of the embedding:

* a byte (`unsigned char`) is a `Nat`; a C string (`const char*`) is the list of bytes found
  at the pointer, and it ends at the first `0` byte or at the end of the list;
* `size_t` is a `Nat` reduced modulo `2 ^ 64` after every addition and subtraction;
* an output stream is the list of bytes written to it so far;
* dereferencing a null pointer (undefined behaviour) is the result `none`.
-/

namespace Cosmetics

/-! ## Machine arithmetic on `size_t` -/

/-- Number of values of `size_t` (64 bit). -/
def SIZE_MOD : Nat := 2 ^ 64

/-- Addition of two `size_t` values (wraps around). -/
def size_add (a b : Nat) : Nat := (a + b) % SIZE_MOD

/-- Subtraction of two `size_t` values (wraps around), for `a b < SIZE_MOD`. -/
def size_sub (a b : Nat) : Nat := (a + SIZE_MOD - b) % SIZE_MOD

/-! ## `utf8_display_width` (cosmetics.cpp, lines 11-17) -/

/-- The `for` loop of `utf8_display_width`: `p` is the rest of the buffer, `width` the counter. -/
def utf8_display_width.loop : List Nat → Nat → Nat
  | [], width => width
  | b :: p, width =>
    if b = 0 then width
    else utf8_display_width.loop p (if b &&& 0xC0 ≠ 0x80 then size_add width 1 else width)

/-- Embedding of `size_t utf8_display_width(const char* str)`. -/
def utf8_display_width (str : List Nat) : Nat :=
  utf8_display_width.loop str 0

/-- The bytes of a C string up to its terminator: what `std::string(const char*)` copies and
what `operator<<(ostream&, const char*)` writes. -/
def c_str (p : List Nat) : List Nat := p.takeWhile (fun b => b != 0)

/-! ## UTF-8 (RFC 3629), the notion of well-formed input of the width contract -/

/-- The UTF-8 encoding of the code point `c` (RFC 3629, section 3); not part of the program. -/
def utf8_encode (c : Nat) : List Nat :=
  if c < 0x80 then [c]
  else if c < 0x800 then [0xC0 ||| (c >>> 6), 0x80 ||| (c &&& 0x3F)]
  else if c < 0x10000 then
    [0xE0 ||| (c >>> 12), 0x80 ||| ((c >>> 6) &&& 0x3F), 0x80 ||| (c &&& 0x3F)]
  else
    [0xF0 ||| (c >>> 18), 0x80 ||| ((c >>> 12) &&& 0x3F), 0x80 ||| ((c >>> 6) &&& 0x3F),
      0x80 ||| (c &&& 0x3F)]

/-- The UTF-8 encoding of a sequence of code points. -/
def utf8_encode_all (cps : List Nat) : List Nat := (cps.map utf8_encode).flatten

/-- The number of bytes before the terminator that are not UTF-8 continuation bytes. -/
def lead_count (str : List Nat) : Nat := (c_str str).countP (fun b => b &&& 0xC0 != 0x80)

/-- The digits of `n` in base 10, most significant first, in front of `acc`; `fuel` bounds the
number of digits. -/
def decimal.go : Nat → Nat → List Nat → List Nat
  | 0, _, acc => acc
  | fuel + 1, n, acc =>
    if n / 10 = 0 then (48 + n % 10) :: acc
    else decimal.go fuel (n / 10) ((48 + n % 10) :: acc)

/-- What `operator<<(ostream&, int)` writes for a non-negative `int` in the classic locale: its
decimal digits in ASCII. -/
def decimal (n : Nat) : List Nat := decimal.go (n + 1) n []

/-- The number a string of ASCII decimal digits denotes. -/
def decimal_value (ds : List Nat) : Nat := ds.foldl (fun a d => 10 * a + (d - 48)) 0

/-- The bytes of an ASCII string literal of the source. -/
def bytes (s : String) : List Nat := s.toList.map Char.toNat

/-- The control structure `for (int i = lo; i < lo + n; i++) body`, threading the state the
body updates; `none` is undefined behaviour inside the body. -/
def forLoop {σ : Type} (body : Nat → σ → Option σ) : Nat → Nat → σ → Option σ
  | 0, _, s => some s
  | n + 1, i, s => (body i s).bind (forLoop body n (i + 1))

/-! ## The result of a query (libpq) -/

/-- Modelled from the spec: `ExecStatusType` of libpq, the status of a result. -/
inductive ExecStatusType
  | PGRES_EMPTY_QUERY
  | PGRES_COMMAND_OK
  | PGRES_TUPLES_OK
  | PGRES_COPY_OUT
  | PGRES_COPY_IN
  | PGRES_BAD_RESPONSE
  | PGRES_NONFATAL_ERROR
  | PGRES_FATAL_ERROR
  deriving DecidableEq, Repr

/-- Modelled from the spec: `PGresult` of libpq, a result set: its status, the ordered column
names and the ordered rows of cells, every name and cell a C string. -/
structure PGresult where
  resultStatus : ExecStatusType
  attNames : List (List Nat)
  tuples : List (List (List Nat))
  deriving DecidableEq, Repr

/-- Modelled from the spec: `PQresultStatus` of libpq. -/
def PQresultStatus (res : PGresult) : ExecStatusType := res.resultStatus

/-- Modelled from the spec: `PQntuples` of libpq, the number of rows. -/
def PQntuples (res : PGresult) : Nat := res.tuples.length

/-- Modelled from the spec: `PQnfields` of libpq, the number of columns. -/
def PQnfields (res : PGresult) : Nat := res.attNames.length

/-- Modelled from the spec: `PQfname` of libpq, the name of column `i`, a null pointer (`none`)
when `i` is out of range. -/
def PQfname (res : PGresult) (i : Nat) : Option (List Nat) := res.attNames[i]?

/-- Modelled from the spec: `PQgetvalue` of libpq, the cell of row `i` and column `j`, a null
pointer (`none`) when there is no such cell. -/
def PQgetvalue (res : PGresult) (i j : Nat) : Option (List Nat) :=
  match res.tuples[i]? with
  | none => none
  | some row => row[j]?

/-- Largest value of `int`, the type in which libpq stores counts and lengths. -/
def INT_MAX : Nat := 2 ^ 31 - 1

/-- The invariant of the data model: every row has exactly as many cells as there are columns. -/
def PGresult.Rectangular (res : PGresult) : Prop :=
  ∀ row ∈ res.tuples, row.length = res.attNames.length

/-- The sizes libpq can represent: the number of rows, the number of columns and the length of
every name and of every cell fit in an `int`. -/
def PGresult.Sized (res : PGresult) : Prop :=
  res.tuples.length ≤ INT_MAX ∧ res.attNames.length ≤ INT_MAX ∧
    (∀ s ∈ res.attNames, s.length ≤ INT_MAX) ∧
    ∀ row ∈ res.tuples, ∀ s ∈ row, s.length ≤ INT_MAX

instance PGresult.decRectangular (res : PGresult) : Decidable res.Rectangular :=
  inferInstanceAs (Decidable (∀ row ∈ res.tuples, row.length = res.attNames.length))

instance PGresult.decSized (res : PGresult) : Decidable res.Sized :=
  inferInstanceAs (Decidable (res.tuples.length ≤ INT_MAX ∧ res.attNames.length ≤ INT_MAX ∧
    (∀ s ∈ res.attNames, s.length ≤ INT_MAX) ∧
    ∀ row ∈ res.tuples, ∀ s ∈ row, s.length ≤ INT_MAX))

/-! ## `CosmeticsDatabase::printResults` (cosmetics.cpp, lines 58-109) -/

/-- Lines 67-82 of `printResults`: the vector `colWidth` after the three loops that fill it. -/
def printResults.colWidth (res : PGresult) : Option (List Nat) :=
  let rows := PQntuples res
  let cols := PQnfields res
  let colWidth := List.replicate cols 0
  (forLoop (fun i colWidth =>
      (PQfname res i).bind fun name =>
      some (colWidth.set i (utf8_display_width name))) cols 0 colWidth).bind fun colWidth =>
  (forLoop (fun i colWidth =>
      forLoop (fun j colWidth =>
        (PQgetvalue res i j).bind fun value =>
        let w := utf8_display_width value
        some (colWidth.set j (max (colWidth.getD j 0) w))) cols 0 colWidth)
    rows 0 colWidth).bind fun colWidth =>
  forLoop (fun i colWidth => some (colWidth.set i (size_add (colWidth.getD i 0) 4)))
    cols 0 colWidth

/-- Embedding of `void CosmeticsDatabase::printResults(PGresult *res)`; `cout` is the standard
output before the call, the result is the standard output after it. -/
def printResults (res : PGresult) (cout : List Nat) : Option (List Nat) :=
  let rows := PQntuples res
  let cols := PQnfields res
  if rows = 0 then
    some (cout ++ bytes "\nNo data found\n")
  else
    (printResults.colWidth res).bind fun colWidth =>
    let cout := cout ++ bytes "\n"
    (forLoop (fun i cout =>
        (PQfname res i).bind fun name =>
        let header := c_str name
        let w := utf8_display_width header
        some (cout ++ header ++ List.replicate (size_sub (colWidth.getD i 0) w) 32))
      cols 0 cout).bind fun cout =>
    let cout := cout ++ bytes "\n"
    (forLoop (fun i totalWidth => some (size_add totalWidth (colWidth.getD i 0)))
      cols 0 0).bind fun totalWidth =>
    let cout := cout ++ List.replicate totalWidth 45 ++ bytes "\n"
    (forLoop (fun i cout =>
        (forLoop (fun j cout =>
            (PQgetvalue res i j).bind fun cell =>
            let value := c_str cell
            let w := utf8_display_width value
            some (cout ++ value ++ List.replicate (size_sub (colWidth.getD j 0) w) 32))
          cols 0 cout).bind fun cout =>
        some (cout ++ bytes "\n"))
      rows 0 cout).bind fun cout =>
    some (cout ++ bytes "\nRows returned: " ++ decimal rows ++ bytes "\n")

/-! ## Layout of a rendered table, in the words of the specification -/

/-- A name or cell left-aligned and right-padded with spaces to `width` display positions. -/
def pad_cell (width : Nat) (s : List Nat) : List Nat :=
  c_str s ++ List.replicate (width - utf8_display_width s) 32

/-- A header or data-row line without its line break: the padded cells in column order. -/
def render_line (widths : List Nat) (cells : List (List Nat)) : List Nat :=
  (List.zipWith pad_cell widths cells).flatten

/-- The cells of column `j`, in row order. -/
def column (res : PGresult) (j : Nat) : List (List Nat) :=
  res.tuples.map fun row => row.getD j []

/-- The largest display width among a column name and the cells of its column. -/
def max_width (name : List Nat) (cells : List (List Nat)) : Nat :=
  cells.foldl (fun m v => max m (utf8_display_width v)) (utf8_display_width name)

/-- The column widths in closed form: per column, the largest display width among the name
and the cells, plus 4 in `size_t` arithmetic. -/
def col_widths (res : PGresult) : List Nat :=
  (List.range (PQnfields res)).map fun j =>
    size_add (max_width (res.attNames.getD j []) (column res j)) 4

/-- The result set of the worked example: columns "name" and "price", rows ("Lotion", "12")
and ("Soap", "3"). -/
def example_result : PGresult :=
  { resultStatus := ExecStatusType.PGRES_TUPLES_OK
    attNames := [bytes "name", bytes "price"]
    tuples := [[bytes "Lotion", bytes "12"], [bytes "Soap", bytes "3"]] }

/-- A result set with two columns and no row. -/
def empty_result : PGresult :=
  { resultStatus := ExecStatusType.PGRES_TUPLES_OK
    attNames := [bytes "name", bytes "price"]
    tuples := [] }

/-! ## `CosmeticsDatabase::executeQuery` and `CosmeticsDatabase::runAll` -/

/-- Modelled from the spec: the SQL collaborator behind `PGconn *conn`. `PQexec` runs a query
on a connection in state `σ` and yields the new state and the result; `PQerrorMessage` is the
message of the most recent failure. -/
structure Backend (σ : Type) where
  PQexec : σ → List Nat → σ × PGresult
  PQerrorMessage : σ → List Nat

/-- What a run can observe and change: the connection, the standard output and the error
stream. -/
structure World (σ : Type) where
  conn : σ
  cout : List Nat
  cerr : List Nat

/-- Embedding of `void CosmeticsDatabase::executeQuery(const string& query,
const string& description)`. -/
def executeQuery {σ : Type} (db : Backend σ) (query description : List Nat) (w : World σ) :
    Option (World σ) :=
  let cout := w.cout ++ bytes "\n" ++ List.replicate 130 61 ++ bytes "\n"
  let cout := cout ++ description ++ bytes "\n"
  let cout := cout ++ List.replicate 130 61 ++ bytes "\n"
  let r := db.PQexec w.conn (c_str query)
  let res := r.2
  if PQresultStatus res ≠ ExecStatusType.PGRES_TUPLES_OK then
    let cout := cout ++ bytes "ERROR: " ++ c_str (db.PQerrorMessage r.1) ++ bytes "\n"
    some { conn := r.1, cout := cout, cerr := w.cerr }
  else
    (printResults res cout).bind fun cout =>
    some { conn := r.1, cout := cout, cerr := w.cerr }

/-- The query text of `query1`. -/
def query1.query : List Nat :=
  bytes ("\n" ++
    "            SELECT p.product_name, c.category_name, b.brand_name, p.price, " ++
    "p.stock_quantity\n" ++
    "            FROM products p \n" ++
    "            JOIN categories c ON p.category_id = c.category_id\n" ++
    "            JOIN brands b ON p.brand_id = b.brand_id\n" ++
    "            ORDER BY p.price DESC;\n" ++
    "        ")

/-- Embedding of `CosmeticsDatabase::query1`. -/
def query1 {σ : Type} (db : Backend σ) (w : World σ) : Option (World σ) :=
  executeQuery db query1.query
    (bytes "QUERY 1: All products with categories and brands (JOIN)") w

/-- The query text of `query2`. -/
def query2.query : List Nat :=
  bytes ("\n" ++
    "            SELECT product_name, price, stock_quantity\n" ++
    "            FROM products \n" ++
    "            WHERE price > 2000\n" ++
    "            ORDER BY price DESC;\n" ++
    "        ")

/-- Embedding of `CosmeticsDatabase::query2`. -/
def query2 {σ : Type} (db : Backend σ) (w : World σ) : Option (World σ) :=
  executeQuery db query2.query
    (bytes "QUERY 2: Premium products (price > 2000) - WHERE clause") w

/-- The query text of `query3`. -/
def query3.query : List Nat :=
  bytes ("\n" ++
    "            SELECT c.category_name, COUNT(p.product_id) as product_count, \n" ++
    "                   ROUND(AVG(p.price)::NUMERIC, 2) as avg_price\n" ++
    "            FROM categories c\n" ++
    "            LEFT JOIN products p ON c.category_id = p.category_id\n" ++
    "            GROUP BY c.category_id, c.category_name\n" ++
    "            HAVING COUNT(p.product_id) > 0\n" ++
    "            ORDER BY product_count DESC;\n" ++
    "        ")

/-- Embedding of `CosmeticsDatabase::query3`. -/
def query3 {σ : Type} (db : Backend σ) (w : World σ) : Option (World σ) :=
  executeQuery db query3.query
    (bytes "QUERY 3: Products by category (COUNT + AVG + HAVING)") w

/-- The query text of `query4`. -/
def query4.query : List Nat :=
  bytes ("\n" ++
    "            SELECT b.brand_name, COUNT(p.product_id) as products, \n" ++
    "                   SUM(p.stock_quantity) as total_stock\n" ++
    "            FROM brands b\n" ++
    "            LEFT JOIN products p ON b.brand_id = p.brand_id\n" ++
    "            GROUP BY b.brand_id, b.brand_name\n" ++
    "            HAVING COUNT(p.product_id) > 0\n" ++
    "            ORDER BY products DESC;\n" ++
    "        ")

/-- Embedding of `CosmeticsDatabase::query4`. -/
def query4 {σ : Type} (db : Backend σ) (w : World σ) : Option (World σ) :=
  executeQuery db query4.query
    (bytes "QUERY 4: Products and stock by brand (GROUP BY + SUM)") w

/-- The query text of `query5`. -/
def query5.query : List Nat :=
  bytes ("\n" ++
    "            SELECT p.product_name, ROUND(AVG(r.rating)::NUMERIC, 2) as avg_rating, \n" ++
    "                   COUNT(r.review_id) as review_count\n" ++
    "            FROM products p\n" ++
    "            INNER JOIN reviews r ON p.product_id = r.product_id\n" ++
    "            GROUP BY p.product_id, p.product_name\n" ++
    "            HAVING AVG(r.rating) >= 4.0\n" ++
    "            ORDER BY avg_rating DESC;\n" ++
    "        ")

/-- Embedding of `CosmeticsDatabase::query5`. -/
def query5 {σ : Type} (db : Backend σ) (w : World σ) : Option (World σ) :=
  executeQuery db query5.query
    (bytes "QUERY 5: Top rated products (AVG rating >= 4.0)") w

/-- The query text of `query6`. -/
def query6.query : List Nat :=
  bytes ("\n" ++
    "            SELECT product_name, expiration_date, \n" ++
    "                   expiration_date - CURRENT_DATE as days_left\n" ++
    "            FROM products\n" ++
    "            WHERE expiration_date < CURRENT_DATE + INTERVAL \x276 months\x27\n" ++
    "            ORDER BY expiration_date ASC;\n" ++
    "        ")

/-- Embedding of `CosmeticsDatabase::query6`. -/
def query6 {σ : Type} (db : Backend σ) (w : World σ) : Option (World σ) :=
  executeQuery db query6.query
    (bytes "QUERY 6: Products expiring soon (within 6 months) - subquery logic") w

/-- The query text of `query7`. -/
def query7.query : List Nat :=
  bytes ("\n" ++
    "            SELECT p.product_name, su.supplier_name, sh.quantity, \n" ++
    "                   sh.cost, sh.shipment_date\n" ++
    "            FROM shipments sh\n" ++
    "            INNER JOIN products p ON sh.product_id = p.product_id\n" ++
    "            INNER JOIN suppliers su ON sh.supplier_id = su.supplier_id\n" ++
    "            ORDER BY sh.shipment_date DESC;\n" ++
    "        ")

/-- Embedding of `CosmeticsDatabase::query7`. -/
def query7 {σ : Type} (db : Backend σ) (w : World σ) : Option (World σ) :=
  executeQuery db query7.query
    (bytes "QUERY 7: Recent shipments with suppliers (INNER JOIN)") w

/-- The query text of `query8`. -/
def query8.query : List Nat :=
  bytes ("\n" ++
    "            SELECT p.product_name, SUM(s.quantity_sold) as total_sold, \n" ++
    "                   SUM(s.total_price) as revenue\n" ++
    "            FROM products p\n" ++
    "            LEFT JOIN sales s ON p.product_id = s.product_id\n" ++
    "            WHERE s.sale_id IS NOT NULL\n" ++
    "            GROUP BY p.product_id, p.product_name\n" ++
    "            ORDER BY revenue DESC\n" ++
    "            LIMIT 5;\n" ++
    "        ")

/-- Embedding of `CosmeticsDatabase::query8`. -/
def query8 {σ : Type} (db : Backend σ) (w : World σ) : Option (World σ) :=
  executeQuery db query8.query
    (bytes "QUERY 8: Top-5 bestsellers by revenue (SUM + LIMIT)") w

/-- The query text of `query9`. -/
def query9.query : List Nat :=
  bytes ("\n" ++
    "            SELECT b.brand_name, SUM(s.total_price) as total_revenue,\n" ++
    "                   COUNT(s.sale_id) as sales_count\n" ++
    "            FROM brands b\n" ++
    "            JOIN products p ON b.brand_id = p.brand_id\n" ++
    "            JOIN sales s ON p.product_id = s.product_id\n" ++
    "            GROUP BY b.brand_id, b.brand_name\n" ++
    "            ORDER BY total_revenue DESC;\n" ++
    "        ")

/-- Embedding of `CosmeticsDatabase::query9`. -/
def query9 {σ : Type} (db : Backend σ) (w : World σ) : Option (World σ) :=
  executeQuery db query9.query
    (bytes "QUERY 9: Revenue by brand (multiple JOINs + SUM)") w

/-- The query text of `query10`. -/
def query10.query : List Nat :=
  bytes ("\n" ++
    "            SELECT \n" ++
    "                MIN(price) as cheapest,\n" ++
    "                MAX(price) as most_expensive,\n" ++
    "                ROUND(AVG(price)::NUMERIC, 2) as average_price,\n" ++
    "                SUM(stock_quantity) as total_items\n" ++
    "            FROM products;\n" ++
    "        ")

/-- Embedding of `CosmeticsDatabase::query10`. -/
def query10 {σ : Type} (db : Backend σ) (w : World σ) : Option (World σ) :=
  executeQuery db query10.query
    (bytes "QUERY 10: Database statistics (MIN, MAX, AVG, SUM)") w

/-- The query text `inj1` of `sqlInjections`. -/
def sqlInjections.inj1 : List Nat :=
  bytes "SELECT product_name, price FROM products WHERE price > 0 OR 1=1;"

/-- The query text `inj2` of `sqlInjections`. -/
def sqlInjections.inj2 : List Nat :=
  bytes "SELECT product_name FROM products WHERE price > 0 OR (SELECT COUNT(*) FROM brands) > 0;"

/-- The query text `inj3` of `sqlInjections`. -/
def sqlInjections.inj3 : List Nat :=
  bytes ("\n" ++
    "            SELECT product_name, CAST(price AS VARCHAR) as price\n" ++
    "            FROM products \n" ++
    "            UNION ALL\n" ++
    "            SELECT brand_name, \x279999\x27 FROM brands;\n" ++
    "        ")

/-- Embedding of `CosmeticsDatabase::sqlInjections`. -/
def sqlInjections {σ : Type} (db : Backend σ) (w : World σ) : Option (World σ) :=
  let cout := w.cout ++ bytes "\n" ++ List.replicate 130 61 ++ bytes "\n"
  let cout := cout ++ bytes "SQL INJECTION DEMONSTRATIONS (for educational purposes)\n"
  let cout := cout ++ List.replicate 130 61 ++ bytes "\n"
  (executeQuery db sqlInjections.inj1 (bytes "INJECTION 1: Boolean bypass (OR 1=1)")
    { w with cout := cout }).bind fun w =>
  (executeQuery db sqlInjections.inj2 (bytes "INJECTION 2: Subquery injection") w).bind fun w =>
  executeQuery db sqlInjections.inj3 (bytes "INJECTION 3: UNION attack") w

/-- Embedding of `CosmeticsDatabase::runAll`. -/
def runAll {σ : Type} (db : Backend σ) (w : World σ) : Option (World σ) :=
  let cout := w.cout ++ bytes "\n" ++ List.replicate 130 61 ++ bytes "\n"
  let cout := cout ++ bytes "                     COSMETICS SHOP DATABASE - PostgreSQL\n"
  let cout := cout ++ bytes "                10 SQL Queries + 3 SQL Injection Examples\n"
  let cout := cout ++ List.replicate 130 61 ++ bytes "\n"
  (query1 db { w with cout := cout }).bind fun w =>
  (query2 db w).bind fun w =>
  (query3 db w).bind fun w =>
  (query4 db w).bind fun w =>
  (query5 db w).bind fun w =>
  (query6 db w).bind fun w =>
  (query7 db w).bind fun w =>
  (query8 db w).bind fun w =>
  (query9 db w).bind fun w =>
  (query10 db w).bind fun w =>
  (sqlInjections db w).bind fun w =>
  let cout := w.cout ++ bytes "\n" ++ List.replicate 130 61 ++ bytes "\n"
  let cout := cout ++ bytes "SUCCESS: All queries executed successfully!\n"
  let cout := cout ++ List.replicate 130 61 ++ bytes "\n\n"
  some { w with cout := cout }

/-- The thirteen query texts in the order `runAll` sends them. -/
def all_queries : List (List Nat) :=
  [query1.query, query2.query, query3.query, query4.query, query5.query, query6.query,
    query7.query, query8.query, query9.query, query10.query, sqlInjections.inj1,
    sqlInjections.inj2, sqlInjections.inj3]

/-- A collaborator on which every query fails; the state of the connection counts the queries
it has received. -/
def failing_backend : Backend Nat :=
  { PQexec := fun n _ =>
      (n + 1, { resultStatus := ExecStatusType.PGRES_FATAL_ERROR, attNames := [], tuples := [] })
    PQerrorMessage := fun _ => bytes "ERROR:  permission denied for table products\n" }

/-! # Theorems -/

/-! ## Facts about `utf8_display_width` -/

theorem loop_nil (w : Nat) : utf8_display_width.loop [] w = w := rfl

theorem loop_zero (p : List Nat) (w : Nat) : utf8_display_width.loop (0 :: p) w = w := by
  simp [utf8_display_width.loop]

theorem loop_lead (b : Nat) (p : List Nat) (w : Nat) (h0 : b ≠ 0) (hb : b &&& 0xC0 ≠ 0x80) :
    utf8_display_width.loop (b :: p) w = utf8_display_width.loop p (size_add w 1) := by
  simp [utf8_display_width.loop, h0, hb]

theorem loop_cont (b : Nat) (p : List Nat) (w : Nat) (hb : b &&& 0xC0 = 0x80) :
    utf8_display_width.loop (b :: p) w = utf8_display_width.loop p w := by
  have h0 : b ≠ 0 := by
    rintro rfl
    simp at hb
  simp [utf8_display_width.loop, h0, hb]

theorem size_add_mod (a b : Nat) : size_add (a % SIZE_MOD) b = size_add a b := by
  simp [size_add, Nat.add_mod]

/-- The loop adds the number of lead bytes to the counter, modulo `2 ^ 64`. -/
theorem loop_eq_lead_count (p : List Nat) (w : Nat) :
    utf8_display_width.loop p w % SIZE_MOD = (w + lead_count p) % SIZE_MOD := by
  induction p generalizing w with
  | nil => simp [utf8_display_width.loop, lead_count, c_str]
  | cons b p ih =>
    by_cases h0 : b = 0
    · subst h0
      simp [utf8_display_width.loop, lead_count, c_str]
    · by_cases hb : b &&& 0xC0 = 0x80
      · rw [loop_cont b p w hb, ih]
        simp [lead_count, c_str, List.takeWhile_cons, h0, hb] at *
      · rw [loop_lead b p w h0 hb, ih]
        have : lead_count (b :: p) = lead_count p + 1 := by
          simp [lead_count, c_str, List.takeWhile_cons, h0, hb]
        rw [this]
        simp only [size_add, SIZE_MOD]
        omega

theorem loop_lt (p : List Nat) (w : Nat) (hw : w < SIZE_MOD) :
    utf8_display_width.loop p w < SIZE_MOD := by
  induction p generalizing w with
  | nil => simpa [utf8_display_width.loop] using hw
  | cons b p ih =>
    unfold utf8_display_width.loop
    split
    · exact hw
    · apply ih
      split
      · exact Nat.mod_lt _ (by decide)
      · exact hw

theorem utf8_display_width_lt (p : List Nat) : utf8_display_width p < SIZE_MOD :=
  loop_lt p 0 (by decide)

/-- The function returns the number of lead bytes before the terminator, modulo `2 ^ 64`. -/
theorem utf8_display_width_eq_mod (p : List Nat) :
    utf8_display_width p = lead_count p % SIZE_MOD := by
  have h := loop_eq_lead_count p 0
  rw [Nat.mod_eq_of_lt (loop_lt p 0 (by decide))] at h
  simpa [utf8_display_width] using h

theorem utf8_display_width_eq (p : List Nat) (h : lead_count p < SIZE_MOD) :
    utf8_display_width p = lead_count p := by
  rw [utf8_display_width_eq_mod, Nat.mod_eq_of_lt h]

theorem c_str_length_le (p : List Nat) : (c_str p).length ≤ p.length := by
  induction p with
  | nil => simp [c_str]
  | cons b p ih =>
    simp only [c_str, List.takeWhile_cons] at *
    split
    · simp; omega
    · simp

theorem lead_count_le_c_str (p : List Nat) : lead_count p ≤ (c_str p).length :=
  List.countP_le_length _

theorem lead_count_le (p : List Nat) : lead_count p ≤ p.length :=
  Nat.le_trans (lead_count_le_c_str p) (c_str_length_le p)

theorem lead_count_nil : lead_count [] = 0 := rfl

theorem lead_count_cons_lead (b : Nat) (p : List Nat) (h0 : b ≠ 0) (hb : b &&& 0xC0 ≠ 0x80) :
    lead_count (b :: p) = lead_count p + 1 := by
  simp [lead_count, c_str, List.takeWhile_cons, h0, hb]

theorem lead_count_cons_cont (b : Nat) (p : List Nat) (hb : b &&& 0xC0 = 0x80) :
    lead_count (b :: p) = lead_count p := by
  have h0 : b ≠ 0 := by
    rintro rfl
    simp at hb
  simp [lead_count, c_str, List.takeWhile_cons, h0, hb]

/-! ### Bit patterns of UTF-8 bytes -/

theorem ascii_is_lead : ∀ b < 0x80, b &&& 0xC0 ≠ 0x80 := by decide

theorem lead2_facts : ∀ x < 32, (0xC0 ||| x) ≠ 0 ∧ (0xC0 ||| x) &&& 0xC0 ≠ 0x80 := by decide

theorem lead3_facts : ∀ x < 16, (0xE0 ||| x) ≠ 0 ∧ (0xE0 ||| x) &&& 0xC0 ≠ 0x80 := by decide

theorem lead4_facts : ∀ x < 8, (0xF0 ||| x) ≠ 0 ∧ (0xF0 ||| x) &&& 0xC0 ≠ 0x80 := by decide

theorem cont_facts : ∀ y < 64, (0x80 ||| y) &&& 0xC0 = 0x80 := by decide

theorem and_3F_lt (x : Nat) : x &&& 0x3F < 64 :=
  Nat.lt_succ_of_le Nat.and_le_right

theorem lead_count_cont (x : Nat) (p : List Nat) :
    lead_count ((0x80 ||| (x &&& 0x3F)) :: p) = lead_count p :=
  lead_count_cons_cont _ p (cont_facts _ (and_3F_lt x))

/-- One encoded code point contributes exactly one lead byte. -/
theorem lead_count_encode_append (c : Nat) (hc0 : 0 < c) (hc : c < 0x110000) (p : List Nat) :
    lead_count (utf8_encode c ++ p) = lead_count p + 1 := by
  unfold utf8_encode
  split
  · rename_i h
    exact lead_count_cons_lead c p (by omega) (ascii_is_lead c h)
  · split
    · rename_i h
      have hx : c >>> 6 < 32 := by rw [Nat.shiftRight_eq_div_pow]; omega
      have := lead2_facts _ hx
      simp only [List.cons_append, List.nil_append]
      rw [lead_count_cons_lead _ _ this.1 this.2, lead_count_cont]
    · split
      · rename_i h
        have hx : c >>> 12 < 16 := by rw [Nat.shiftRight_eq_div_pow]; omega
        have := lead3_facts _ hx
        simp only [List.cons_append, List.nil_append]
        rw [lead_count_cons_lead _ _ this.1 this.2, lead_count_cont, lead_count_cont]
      · have hx : c >>> 18 < 8 := by rw [Nat.shiftRight_eq_div_pow]; omega
        have := lead4_facts _ hx
        simp only [List.cons_append, List.nil_append]
        rw [lead_count_cons_lead _ _ this.1 this.2, lead_count_cont, lead_count_cont,
          lead_count_cont]

theorem lead_count_encode_all (cps : List Nat) (hcp : ∀ c ∈ cps, 0 < c ∧ c < 0x110000) :
    lead_count (utf8_encode_all cps) = cps.length := by
  induction cps with
  | nil => rfl
  | cons c cps ih =>
    have hc := hcp c (List.mem_cons_self _ _)
    have ih := ih (fun d hd => hcp d (List.mem_cons_of_mem _ hd))
    simp only [utf8_encode_all, List.map_cons, List.flatten_cons, List.length_cons] at *
    rw [lead_count_encode_append c hc.1 hc.2, ih]

theorem lead_count_ascii (s : List Nat) (hs : ∀ b ∈ s, 0 < b ∧ b < 0x80) :
    lead_count s = s.length := by
  induction s with
  | nil => rfl
  | cons b s ih =>
    have hb := hs b (List.mem_cons_self _ _)
    rw [lead_count_cons_lead b s (by omega) (ascii_is_lead b hb.2),
      ih (fun d hd => hs d (List.mem_cons_of_mem _ hd)), List.length_cons]

/-! ## Claims about `utf8_display_width` -/

/-- C1: the display width of the well-formed UTF-8 encoding of `N` code points, none of them
U+0000 and each encoded in 1 to 4 bytes, is `N` (for `N` representable in `size_t`). -/
theorem utf8_display_width_encoded (cps : List Nat)
    (hcp : ∀ c ∈ cps, 0 < c ∧ c < 0x110000) (hN : cps.length < 2 ^ 64) :
    utf8_display_width (utf8_encode_all cps) = cps.length := by
  rw [utf8_display_width_eq _ (by rw [lead_count_encode_all cps hcp]; exact hN),
    lead_count_encode_all cps hcp]

/-- Witness of C1: the 3-byte code point U+20AC, encoded as E2 82 AC, has width 1; and a mixed
string of a 1-, 2-, 3- and 4-byte code point has width 4. -/
theorem utf8_display_width_encoded_witness :
    utf8_encode_all [0x20AC] = [0xE2, 0x82, 0xAC] ∧
      utf8_display_width (utf8_encode_all [0x20AC]) = [0x20AC].length ∧
      utf8_display_width (utf8_encode_all [0x41, 0xE9, 0x20AC, 0x1F600]) = 4 :=
  ⟨by decide, utf8_display_width_encoded [0x20AC] (by decide) (by decide),
    utf8_display_width_encoded [0x41, 0xE9, 0x20AC, 0x1F600] (by decide) (by decide)⟩

/-- C2: the display width of an ASCII string without embedded NUL (every byte in 0x01..0x7F,
length representable in `size_t`) is its length; the empty string has width 0. -/
theorem utf8_display_width_ascii (s : List Nat) (hs : ∀ b ∈ s, 0 < b ∧ b < 0x80)
    (hlen : s.length < 2 ^ 64) :
    utf8_display_width s = s.length ∧ utf8_display_width [] = 0 := by
  refine ⟨?_, rfl⟩
  rw [utf8_display_width_eq _ (by rw [lead_count_ascii s hs]; exact hlen), lead_count_ascii s hs]

/-- Witness of C2: the width of "Lotion" is 6. -/
theorem utf8_display_width_ascii_witness :
    utf8_display_width [76, 111, 116, 105, 111, 110] = 6 ∧ utf8_display_width [] = 0 :=
  utf8_display_width_ascii [76, 111, 116, 105, 111, 110] (by decide) (by decide)

/-! ## Facts about C strings -/

theorem c_str_nil : c_str [] = [] := rfl

theorem c_str_no_zero (p : List Nat) : 0 ∉ c_str p := by
  intro h
  have := List.mem_takeWhile_imp h
  simp at this

theorem c_str_of_no_zero (p : List Nat) (h : 0 ∉ p) : c_str p = p := by
  unfold c_str
  rw [List.takeWhile_eq_self_iff]
  intro b hb
  have : b ≠ 0 := fun e => h (e ▸ hb)
  simpa using this

theorem c_str_append (a b : List Nat) (h : 0 ∉ a) : c_str (a ++ b) = a ++ c_str b := by
  induction a with
  | nil => rfl
  | cons x a ih =>
    have hx : x ≠ 0 := fun e => h (e ▸ List.mem_cons_self _ _)
    have ha : 0 ∉ a := fun m => h (List.mem_cons_of_mem _ m)
    have := ih ha
    simp only [c_str] at this
    simp [c_str, List.takeWhile_cons, hx, this]

theorem c_str_c_str (p : List Nat) : c_str (c_str p) = c_str p :=
  c_str_of_no_zero _ (c_str_no_zero p)

theorem lead_count_c_str (p : List Nat) : lead_count (c_str p) = lead_count p := by
  simp [lead_count, c_str_c_str]

theorem utf8_display_width_c_str (p : List Nat) :
    utf8_display_width (c_str p) = utf8_display_width p := by
  rw [utf8_display_width_eq_mod, utf8_display_width_eq_mod, lead_count_c_str]

theorem lead_count_append (a b : List Nat) (h : 0 ∉ a) :
    lead_count (a ++ b) = lead_count a + lead_count b := by
  simp [lead_count, c_str_append a b h, c_str_of_no_zero a h, List.countP_append]

theorem lead_count_spaces (n : Nat) : lead_count (List.replicate n 32) = n := by
  induction n with
  | zero => rfl
  | succ n ih =>
    rw [List.replicate_succ, lead_count_cons_lead 32 _ (by decide) (by decide), ih]

theorem no_zero_spaces (n : Nat) : 0 ∉ List.replicate n 32 := by
  intro h
  have := List.eq_of_mem_replicate h
  omega

theorem utf8_display_width_le_length (p : List Nat) : utf8_display_width p ≤ p.length := by
  rw [utf8_display_width_eq_mod]
  exact Nat.le_trans (Nat.mod_le _ _) (lead_count_le p)

/-! ## Facts about `for` loops -/

/-- A loop whose body appends `g j` to the stream appends the pieces in index order. -/
theorem forLoop_append (body : Nat → List Nat → Option (List Nat)) (g : Nat → List Nat) :
    ∀ (n i : Nat) (out : List Nat),
      (∀ j, i ≤ j → j < i + n → ∀ o, body j o = some (o ++ g j)) →
      forLoop body n i out = some (out ++ ((List.range' i n).map g).flatten) := by
  intro n
  induction n with
  | zero => intro i out _; simp [forLoop]
  | succ n ih =>
    intro i out h
    rw [forLoop, h i (Nat.le_refl _) (by omega), Option.some_bind,
      ih (i + 1) _ (fun j h1 h2 o => h j (by omega) (by omega) o)]
    simp [List.range'_succ]

/-- A loop whose body stores `f j (v[j])` in `v[j]` updates the entries in its range. -/
theorem forLoop_set (body : Nat → List Nat → Option (List Nat)) (f : Nat → Nat → Nat) :
    ∀ (n i : Nat) (v : List Nat),
      (∀ j, i ≤ j → j < i + n → ∀ c, body j c = some (c.set j (f j (c.getD j 0)))) →
      ∃ r, forLoop body n i v = some r ∧ r.length = v.length ∧
        ∀ j, r.getD j 0 =
          if i ≤ j ∧ j < i + n ∧ j < v.length then f j (v.getD j 0) else v.getD j 0 := by
  intro n
  induction n with
  | zero =>
    intro i v _
    refine ⟨v, rfl, rfl, fun j => ?_⟩
    have : ¬ (i ≤ j ∧ j < i + 0 ∧ j < v.length) := by omega
    rw [if_neg this]
  | succ n ih =>
    intro i v h
    obtain ⟨r, hr, hlen, hget⟩ := ih (i + 1) (v.set i (f i (v.getD i 0)))
      (fun j h1 h2 c => h j (by omega) (by omega) c)
    refine ⟨r, ?_, ?_, ?_⟩
    · rw [forLoop, h i (Nat.le_refl _) (by omega), Option.some_bind, hr]
    · simpa using hlen
    · intro j
      rw [hget j]
      simp only [List.length_set]
      by_cases hji : j = i
      · subst hji
        by_cases hlt : j < v.length
        · simp [List.getD_eq_getElem?_getD, List.getElem?_set, hlt]
        · have hnone : v[j]? = none := List.getElem?_eq_none (by omega)
          simp [List.getD_eq_getElem?_getD, List.getElem?_set, hlt, hnone]
      · have hne : i ≠ j := fun e => hji e.symm
        simp only [List.getD_eq_getElem?_getD, List.getElem?_set_ne hne]
        by_cases h1 : i + 1 ≤ j ∧ j < i + 1 + n ∧ j < v.length
        · have h2 : i ≤ j ∧ j < i + (n + 1) ∧ j < v.length := by omega
          simp [h1, h2]
        · have h2 : ¬ (i ≤ j ∧ j < i + (n + 1) ∧ j < v.length) := by omega
          simp [h1, h2]

/-- The loop that sums the column widths. -/
theorem forLoop_sum (v : List Nat) :
    ∀ (n i t : Nat),
      forLoop (fun i totalWidth => some (size_add totalWidth (v.getD i 0))) n i t =
        some (if n = 0 then t
          else (t + ((List.range' i n).map fun j => v.getD j 0).sum) % SIZE_MOD) := by
  intro n
  induction n with
  | zero => intro i t; simp [forLoop]
  | succ n ih =>
    intro i t
    rw [forLoop, Option.some_bind, ih]
    simp only [List.range'_succ, List.map_cons, List.sum_cons, size_add]
    by_cases hn : n = 0
    · subst hn
      simp
    · simp only [hn, if_false, Nat.succ_ne_zero]
      congr 1
      simp only [SIZE_MOD]
      omega

/-! ## Facts about the accessors of a result -/

theorem getElem?_eq_some_getD {α : Type} (l : List α) (i : Nat) (d : α) (h : i < l.length) :
    l[i]? = some (l.getD i d) := by
  rw [List.getD_eq_getElem?_getD, List.getElem?_eq_getElem h]
  rfl

theorem PQfname_eq (res : PGresult) (j : Nat) (hj : j < PQnfields res) :
    PQfname res j = some (res.attNames.getD j []) := by
  exact getElem?_eq_some_getD _ _ _ hj

theorem row_length (res : PGresult) (hrect : res.Rectangular) (i : Nat)
    (hi : i < PQntuples res) : (res.tuples.getD i []).length = PQnfields res := by
  unfold PQntuples at hi
  have : res.tuples.getD i [] = res.tuples[i] := by
    simp [List.getD_eq_getElem?_getD, List.getElem?_eq_getElem hi]
  rw [this]
  exact hrect _ (List.getElem_mem _)

theorem PQgetvalue_eq (res : PGresult) (hrect : res.Rectangular) (i j : Nat)
    (hi : i < PQntuples res) (hj : j < PQnfields res) :
    PQgetvalue res i j = some ((res.tuples.getD i []).getD j []) := by
  have hlen := row_length res hrect i hi
  have hj2 : j < (res.tuples.getD i []).length := by omega
  unfold PQgetvalue
  rw [getElem?_eq_some_getD res.tuples i [] hi]
  exact getElem?_eq_some_getD _ _ _ hj2

theorem column_length (res : PGresult) (j : Nat) : (column res j).length = PQntuples res := by
  simp [column, PQntuples]

theorem column_drop (res : PGresult) (i j : Nat) (hi : i < PQntuples res) :
    (column res j).drop i =
      (res.tuples.getD i []).getD j [] :: (column res j).drop (i + 1) := by
  have h1 : i < (column res j).length := by rw [column_length]; exact hi
  rw [List.drop_eq_getElem_cons h1]
  unfold PQntuples at hi
  simp [column, List.getD_eq_getElem?_getD, List.getElem?_eq_getElem hi]

/-! ## The column widths -/

/-- The second loop of `printResults` (lines 73-78) folds `max` over the rows, per column. -/
theorem colWidth_rows (res : PGresult) (hrect : res.Rectangular) :
    ∀ (n i : Nat) (c : List Nat), c.length = PQnfields res → i + n ≤ PQntuples res →
      ∃ r, forLoop (fun i colWidth =>
          forLoop (fun j colWidth =>
            (PQgetvalue res i j).bind fun value =>
            some (colWidth.set j (max (colWidth.getD j 0) (utf8_display_width value))))
            (PQnfields res) 0 colWidth) n i c = some r ∧
        r.length = PQnfields res ∧
        ∀ j, j < PQnfields res →
          r.getD j 0 = (((column res j).drop i).take n).foldl
            (fun m v => max m (utf8_display_width v)) (c.getD j 0) := by
  intro n
  induction n with
  | zero =>
    intro i c hc _
    exact ⟨c, rfl, hc, fun j _ => by simp⟩
  | succ n ih =>
    intro i c hc hin
    have hi : i < PQntuples res := by omega
    obtain ⟨r1, hr1, hlen1, hget1⟩ := forLoop_set
      (fun j colWidth =>
        (PQgetvalue res i j).bind fun value =>
        some (colWidth.set j (max (colWidth.getD j 0) (utf8_display_width value))))
      (fun j x => max x (utf8_display_width ((res.tuples.getD i []).getD j [])))
      (PQnfields res) 0 c
      (fun j _ hj c => by
        simp only [PQgetvalue_eq res hrect i j hi (by omega), Option.some_bind])
    obtain ⟨r, hr, hlen, hget⟩ := ih (i + 1) r1 (by omega) (by omega)
    refine ⟨r, ?_, hlen, ?_⟩
    · rw [forLoop, hr1, Option.some_bind, hr]
    · intro j hj
      have hc1 : 0 ≤ j ∧ j < 0 + PQnfields res ∧ j < c.length := by omega
      rw [hget j hj, hget1 j, if_pos hc1, column_drop res i j hi]
      simp

theorem max_width_eq (res : PGresult) (j : Nat) :
    (((column res j).drop 0).take (PQntuples res)).foldl
        (fun m v => max m (utf8_display_width v)) (utf8_display_width (res.attNames.getD j [])) =
      max_width (res.attNames.getD j []) (column res j) := by
  rw [List.drop_zero, ← column_length res j, List.take_length]
  rfl

theorem col_widths_length (res : PGresult) : (col_widths res).length = PQnfields res := by
  simp [col_widths]

theorem col_widths_getD (res : PGresult) (j : Nat) (hj : j < PQnfields res) :
    (col_widths res).getD j 0 =
      size_add (max_width (res.attNames.getD j []) (column res j)) 4 := by
  simp [col_widths, List.getD_eq_getElem?_getD, List.getElem?_range hj]

/-- Lines 67-82 of `printResults` compute `col_widths`, for every rectangular result. -/
theorem colWidth_eq (res : PGresult) (hrect : res.Rectangular) :
    printResults.colWidth res = some (col_widths res) := by
  obtain ⟨r1, hr1, hlen1, hget1⟩ := forLoop_set
    (fun i colWidth =>
      (PQfname res i).bind fun name => some (colWidth.set i (utf8_display_width name)))
    (fun j _ => utf8_display_width (res.attNames.getD j []))
    (PQnfields res) 0 (List.replicate (PQnfields res) 0)
    (fun j _ hj c => by simp only [PQfname_eq res j (by omega), Option.some_bind])
  rw [List.length_replicate] at hlen1
  obtain ⟨r2, hr2, hlen2, hget2⟩ := colWidth_rows res hrect (PQntuples res) 0 r1 hlen1 (by omega)
  obtain ⟨r3, hr3, hlen3, hget3⟩ := forLoop_set
    (fun i colWidth => some (colWidth.set i (size_add (colWidth.getD i 0) 4)))
    (fun _ x => size_add x 4) (PQnfields res) 0 r2 (fun j _ _ c => rfl)
  have hr : printResults.colWidth res = some r3 := by
    simp only [printResults.colWidth, hr1, Option.some_bind, hr2, hr3]
  rw [hr]
  congr 1
  apply List.ext_getElem
  · rw [col_widths_length]; omega
  · intro j h1 h2
    have hj : j < PQnfields res := by omega
    have e1 : r3[j] = r3.getD j 0 := by
      simp [List.getD_eq_getElem?_getD, List.getElem?_eq_getElem h1]
    have e2 : (col_widths res)[j] = (col_widths res).getD j 0 := by
      simp [List.getD_eq_getElem?_getD, List.getElem?_eq_getElem h2]
    rw [e1, e2, col_widths_getD res j hj, hget3 j]
    have c3 : 0 ≤ j ∧ j < 0 + PQnfields res ∧ j < r2.length := by omega
    rw [if_pos c3, hget2 j hj, hget1 j]
    have c1 : 0 ≤ j ∧ j < 0 + PQnfields res ∧ j < (List.replicate (PQnfields res) 0).length := by
      rw [List.length_replicate]; omega
    rw [if_pos c1, max_width_eq]

/-! ## The text `printResults` writes -/

/-- The text of a rectangular result with at least one row, with the padding lengths and the
length of the rule still in `size_t` arithmetic. -/
theorem printResults_raw (res : PGresult) (hrect : res.Rectangular) (hrows : PQntuples res ≠ 0)
    (cout : List Nat) :
    printResults res cout = some (cout ++ bytes "\n" ++
      ((List.range' 0 (PQnfields res)).map fun j =>
        c_str (res.attNames.getD j []) ++ List.replicate
          (size_sub ((col_widths res).getD j 0)
            (utf8_display_width (c_str (res.attNames.getD j [])))) 32).flatten ++
      bytes "\n" ++
      List.replicate (if PQnfields res = 0 then 0 else
        (0 + ((List.range' 0 (PQnfields res)).map fun j => (col_widths res).getD j 0).sum)
          % SIZE_MOD) 45 ++
      bytes "\n" ++
      ((List.range' 0 (PQntuples res)).map fun i =>
        ((List.range' 0 (PQnfields res)).map fun j =>
          c_str ((res.tuples.getD i []).getD j []) ++ List.replicate
            (size_sub ((col_widths res).getD j 0)
              (utf8_display_width (c_str ((res.tuples.getD i []).getD j [])))) 32).flatten ++
        bytes "\n").flatten ++
      bytes "\nRows returned: " ++ decimal (PQntuples res) ++ bytes "\n") := by
  have hhead := fun out => forLoop_append
    (fun i cout =>
      (PQfname res i).bind fun name =>
      some (cout ++ c_str name ++ List.replicate
        (size_sub ((col_widths res).getD i 0) (utf8_display_width (c_str name))) 32))
    (fun j => c_str (res.attNames.getD j []) ++ List.replicate
      (size_sub ((col_widths res).getD j 0)
        (utf8_display_width (c_str (res.attNames.getD j [])))) 32)
    (PQnfields res) 0 out
    (fun j _ hj o => by
      simp only [PQfname_eq res j (by omega), Option.some_bind, List.append_assoc])
  have hrow := fun (i : Nat) (hi : i < PQntuples res) (out : List Nat) => forLoop_append
    (fun j cout =>
      (PQgetvalue res i j).bind fun cell =>
      some (cout ++ c_str cell ++ List.replicate
        (size_sub ((col_widths res).getD j 0) (utf8_display_width (c_str cell))) 32))
    (fun j => c_str ((res.tuples.getD i []).getD j []) ++ List.replicate
      (size_sub ((col_widths res).getD j 0)
        (utf8_display_width (c_str ((res.tuples.getD i []).getD j [])))) 32)
    (PQnfields res) 0 out
    (fun j _ hj o => by
      simp only [PQgetvalue_eq res hrect i j hi (by omega), Option.some_bind,
        List.append_assoc])
  have hbody := fun out => forLoop_append
    (fun i cout =>
      (forLoop (fun j cout =>
          (PQgetvalue res i j).bind fun cell =>
          some (cout ++ c_str cell ++ List.replicate
            (size_sub ((col_widths res).getD j 0) (utf8_display_width (c_str cell))) 32))
        (PQnfields res) 0 cout).bind fun cout =>
      some (cout ++ bytes "\n"))
    (fun i => ((List.range' 0 (PQnfields res)).map fun j =>
        c_str ((res.tuples.getD i []).getD j []) ++ List.replicate
          (size_sub ((col_widths res).getD j 0)
            (utf8_display_width (c_str ((res.tuples.getD i []).getD j [])))) 32).flatten ++
      bytes "\n")
    (PQntuples res) 0 out
    (fun i _ hi o => by
      simp only [hrow i (by omega) o, Option.some_bind]
      simp only [List.append_assoc])
  simp only [printResults, hrows, if_false, colWidth_eq res hrect, Option.some_bind, hhead,
    forLoop_sum, hbody]

/-! ## The maximum of a column -/

theorem foldl_max_ge_init (cells : List (List Nat)) (m : Nat) :
    m ≤ cells.foldl (fun m v => max m (utf8_display_width v)) m := by
  induction cells generalizing m with
  | nil => exact Nat.le_refl _
  | cons v cells ih => exact Nat.le_trans (Nat.le_max_left _ _) (ih _)

theorem foldl_max_ge_mem (cells : List (List Nat)) (m : Nat) (v : List Nat) (hv : v ∈ cells) :
    utf8_display_width v ≤ cells.foldl (fun m v => max m (utf8_display_width v)) m := by
  induction cells generalizing m with
  | nil => cases hv
  | cons u cells ih =>
    rcases List.mem_cons.1 hv with rfl | h
    · exact Nat.le_trans (Nat.le_max_right _ _) (foldl_max_ge_init cells _)
    · exact ih _ h

theorem foldl_max_attained (cells : List (List Nat)) (m : Nat) :
    cells.foldl (fun m v => max m (utf8_display_width v)) m = m ∨
      ∃ v ∈ cells, cells.foldl (fun m v => max m (utf8_display_width v)) m =
        utf8_display_width v := by
  induction cells generalizing m with
  | nil => exact Or.inl rfl
  | cons u cells ih =>
    rcases ih (max m (utf8_display_width u)) with h | ⟨v, hv, h⟩
    · rcases Nat.le_total m (utf8_display_width u) with hle | hle
      · right
        refine ⟨u, List.mem_cons_self _ _, ?_⟩
        rw [List.foldl_cons, h, Nat.max_eq_right hle]
      · left
        rw [List.foldl_cons, h, Nat.max_eq_left hle]
    · exact Or.inr ⟨v, List.mem_cons_of_mem _ hv, h⟩

theorem max_width_ge_name (name : List Nat) (cells : List (List Nat)) :
    utf8_display_width name ≤ max_width name cells :=
  foldl_max_ge_init cells _

theorem max_width_ge_cell (name : List Nat) (cells : List (List Nat)) (v : List Nat)
    (hv : v ∈ cells) : utf8_display_width v ≤ max_width name cells :=
  foldl_max_ge_mem cells _ v hv

theorem max_width_attained (name : List Nat) (cells : List (List Nat)) :
    max_width name cells = utf8_display_width name ∨
      ∃ v ∈ cells, max_width name cells = utf8_display_width v :=
  foldl_max_attained cells _

theorem max_width_le (name : List Nat) (cells : List (List Nat)) (b : Nat)
    (hname : utf8_display_width name ≤ b) (hcells : ∀ v ∈ cells, utf8_display_width v ≤ b) :
    max_width name cells ≤ b := by
  rcases max_width_attained name cells with h | ⟨v, hv, h⟩
  · rw [h]; exact hname
  · rw [h]; exact hcells v hv

/-! ## Sizes -/

theorem getD_length_le (l : List (List Nat)) (j b : Nat) (h : ∀ s ∈ l, s.length ≤ b) :
    (l.getD j []).length ≤ b := by
  by_cases hj : j < l.length
  · have : l.getD j [] = l[j] := by
      simp [List.getD_eq_getElem?_getD, List.getElem?_eq_getElem hj]
    rw [this]
    exact h _ (List.getElem_mem _)
  · have : l.getD j [] = [] := by
      simp [List.getD_eq_getElem?_getD, List.getElem?_eq_none (Nat.le_of_not_lt hj)]
    rw [this]
    exact Nat.zero_le _

theorem name_width_le (res : PGresult) (hsize : res.Sized) (j : Nat) :
    utf8_display_width (res.attNames.getD j []) ≤ INT_MAX :=
  Nat.le_trans (utf8_display_width_le_length _) (getD_length_le _ _ _ hsize.2.2.1)

theorem cell_width_le (res : PGresult) (hsize : res.Sized) (j : Nat) (v : List Nat)
    (hv : v ∈ column res j) : utf8_display_width v ≤ INT_MAX := by
  obtain ⟨row, hrow, rfl⟩ := List.mem_map.1 hv
  exact Nat.le_trans (utf8_display_width_le_length _)
    (getD_length_le _ _ _ (hsize.2.2.2 row hrow))

theorem max_width_le_INT_MAX (res : PGresult) (hsize : res.Sized) (j : Nat) :
    max_width (res.attNames.getD j []) (column res j) ≤ INT_MAX :=
  max_width_le _ _ _ (name_width_le res hsize j) (cell_width_le res hsize j)

theorem size_add_eq (a b : Nat) (h : a + b < SIZE_MOD) : size_add a b = a + b :=
  Nat.mod_eq_of_lt h

theorem size_sub_eq (a b : Nat) (hb : b ≤ a) (ha : a < SIZE_MOD) : size_sub a b = a - b := by
  unfold size_sub
  have : a + SIZE_MOD - b = (a - b) + SIZE_MOD := by omega
  rw [this, Nat.add_mod_right, Nat.mod_eq_of_lt (by omega)]

/-- Without overflow, the width of a column is the maximum of its column plus 4. -/
theorem col_widths_getD_eq (res : PGresult) (hsize : res.Sized) (j : Nat)
    (hj : j < PQnfields res) :
    (col_widths res).getD j 0 = max_width (res.attNames.getD j []) (column res j) + 4 := by
  rw [col_widths_getD res j hj]
  apply size_add_eq
  have := max_width_le_INT_MAX res hsize j
  simp only [INT_MAX, SIZE_MOD] at *
  omega

theorem col_widths_getD_le (res : PGresult) (hsize : res.Sized) (j : Nat) :
    (col_widths res).getD j 0 ≤ INT_MAX + 4 := by
  by_cases hj : j < PQnfields res
  · rw [col_widths_getD_eq res hsize j hj]
    have := max_width_le_INT_MAX res hsize j
    omega
  · have : (col_widths res).getD j 0 = 0 := by
      rw [List.getD_eq_getElem?_getD, List.getElem?_eq_none]
      · rfl
      · rw [col_widths_length]; omega
    rw [this]
    exact Nat.zero_le _

theorem cell_mem_column (res : PGresult) (i j : Nat) (hi : i < PQntuples res) :
    (res.tuples.getD i []).getD j [] ∈ column res j := by
  unfold PQntuples at hi
  have : res.tuples.getD i [] = res.tuples[i] := by
    simp [List.getD_eq_getElem?_getD, List.getElem?_eq_getElem hi]
  rw [this]
  exact List.mem_map.2 ⟨_, List.getElem_mem _, rfl⟩

/-- Every column name leaves room for at least 4 spaces in its column. -/
theorem name_fits (res : PGresult) (hsize : res.Sized) (j : Nat) (hj : j < PQnfields res) :
    utf8_display_width (res.attNames.getD j []) + 4 ≤ (col_widths res).getD j 0 := by
  rw [col_widths_getD_eq res hsize j hj]
  exact Nat.add_le_add_right (max_width_ge_name _ _) 4

/-- Every cell leaves room for at least 4 spaces in its column. -/
theorem cell_fits (res : PGresult) (hsize : res.Sized) (i j : Nat) (hi : i < PQntuples res)
    (hj : j < PQnfields res) :
    utf8_display_width ((res.tuples.getD i []).getD j []) + 4 ≤ (col_widths res).getD j 0 := by
  rw [col_widths_getD_eq res hsize j hj]
  exact Nat.add_le_add_right (max_width_ge_cell _ _ _ (cell_mem_column res i j hi)) 4

theorem raw_cell_eq (c : Nat) (s : List Nat) (hs : utf8_display_width s ≤ c)
    (hc : c < SIZE_MOD) :
    c_str s ++ List.replicate (size_sub c (utf8_display_width (c_str s))) 32 = pad_cell c s := by
  rw [utf8_display_width_c_str, size_sub_eq c _ hs hc]
  rfl

theorem col_width_lt (res : PGresult) (hsize : res.Sized) (j : Nat) :
    (col_widths res).getD j 0 < SIZE_MOD := by
  have := col_widths_getD_le res hsize j
  simp only [INT_MAX, SIZE_MOD] at *
  omega

/-! ## From index loops to lists -/

theorem getD_eq_getElem {α : Type} (l : List α) (i : Nat) (d : α) (h : i < l.length) :
    l.getD i d = l[i] := by
  rw [List.getD_eq_getElem?_getD, List.getElem?_eq_getElem h]
  rfl

theorem map_range_zipWith (F : Nat → List Nat → List Nat) (a : List Nat) (b : List (List Nat))
    (n : Nat) (ha : a.length = n) (hb : b.length = n) :
    ((List.range' 0 n).map fun j => F (a.getD j 0) (b.getD j [])) = List.zipWith F a b := by
  apply List.ext_getElem
  · simp [ha, hb]
  · intro j h1 h2
    have hj : j < n := by simpa using h1
    have h3 : j < a.length := by omega
    have h4 : j < b.length := by omega
    simp [List.getElem?_eq_getElem h3, List.getElem?_eq_getElem h4]

theorem map_range_getD_rows (G : List (List Nat) → List Nat) (l : List (List (List Nat))) :
    ((List.range' 0 l.length).map fun i => G (l.getD i [])) = l.map G := by
  apply List.ext_getElem
  · simp
  · intro j h1 h2
    have hj : j < l.length := by simpa using h1
    simp [List.getElem?_eq_getElem hj]

theorem map_range_getD_self (a : List Nat) :
    ((List.range' 0 a.length).map fun j => a.getD j 0) = a := by
  apply List.ext_getElem
  · simp
  · intro j h1 h2
    have hj : j < a.length := by simpa using h1
    simp [List.getElem?_eq_getElem hj]

/-! ## The text of a table, by lines -/

theorem col_widths_mem_le (res : PGresult) (hsize : res.Sized) (x : Nat)
    (hx : x ∈ col_widths res) : x ≤ INT_MAX + 4 := by
  obtain ⟨j, hj, rfl⟩ := List.mem_iff_getElem.1 hx
  rw [← getD_eq_getElem (col_widths res) j 0 hj]
  exact col_widths_getD_le res hsize j

theorem col_widths_sum_lt (res : PGresult) (hsize : res.Sized) :
    (col_widths res).sum < SIZE_MOD := by
  have h1 := List.sum_le_card_nsmul (col_widths res) (INT_MAX + 4) (col_widths_mem_le res hsize)
  rw [col_widths_length, smul_eq_mul] at h1
  have h2 : PQnfields res ≤ INT_MAX := hsize.2.1
  have h3 : PQnfields res * (INT_MAX + 4) ≤ INT_MAX * (INT_MAX + 4) :=
    Nat.mul_le_mul_right _ h2
  have h4 : INT_MAX * (INT_MAX + 4) < SIZE_MOD := by decide
  omega

theorem header_line_eq (res : PGresult) (hsize : res.Sized) :
    ((List.range' 0 (PQnfields res)).map fun j =>
        c_str (res.attNames.getD j []) ++ List.replicate
          (size_sub ((col_widths res).getD j 0)
            (utf8_display_width (c_str (res.attNames.getD j [])))) 32).flatten =
      render_line (col_widths res) res.attNames := by
  unfold render_line
  rw [← map_range_zipWith pad_cell (col_widths res) res.attNames (PQnfields res)
    (col_widths_length res) rfl]
  congr 1
  apply List.map_congr_left
  intro j hj
  have hj2 : j < PQnfields res := by
    have := (List.mem_range'_1.1 hj).2
    omega
  exact raw_cell_eq _ _ (by have := name_fits res hsize j hj2; omega)
    (col_width_lt res hsize j)

theorem row_line_eq (res : PGresult) (hrect : res.Rectangular) (hsize : res.Sized) (i : Nat)
    (hi : i < PQntuples res) :
    ((List.range' 0 (PQnfields res)).map fun j =>
        c_str ((res.tuples.getD i []).getD j []) ++ List.replicate
          (size_sub ((col_widths res).getD j 0)
            (utf8_display_width (c_str ((res.tuples.getD i []).getD j [])))) 32).flatten =
      render_line (col_widths res) (res.tuples.getD i []) := by
  unfold render_line
  rw [← map_range_zipWith pad_cell (col_widths res) (res.tuples.getD i []) (PQnfields res)
    (col_widths_length res) (row_length res hrect i hi)]
  congr 1
  apply List.map_congr_left
  intro j hj
  have hj2 : j < PQnfields res := by
    have := (List.mem_range'_1.1 hj).2
    omega
  exact raw_cell_eq _ _ (by have := cell_fits res hsize i j hi hj2; omega)
    (col_width_lt res hsize j)

theorem rows_text_eq (res : PGresult) (hrect : res.Rectangular) (hsize : res.Sized) :
    ((List.range' 0 (PQntuples res)).map fun i =>
        ((List.range' 0 (PQnfields res)).map fun j =>
          c_str ((res.tuples.getD i []).getD j []) ++ List.replicate
            (size_sub ((col_widths res).getD j 0)
              (utf8_display_width (c_str ((res.tuples.getD i []).getD j [])))) 32).flatten ++
        bytes "\n") =
      res.tuples.map fun row => render_line (col_widths res) row ++ bytes "\n" := by
  rw [← map_range_getD_rows (fun row => render_line (col_widths res) row ++ bytes "\n")
    res.tuples]
  apply List.map_congr_left
  intro i hi
  have hi2 : i < PQntuples res := by
    have := (List.mem_range'_1.1 hi).2
    omega
  rw [row_line_eq res hrect hsize i hi2]

theorem total_width_eq (res : PGresult) (hsize : res.Sized) :
    (if PQnfields res = 0 then 0 else
      (0 + ((List.range' 0 (PQnfields res)).map fun j => (col_widths res).getD j 0).sum)
        % SIZE_MOD) = (col_widths res).sum := by
  have hsum : ((List.range' 0 (PQnfields res)).map fun j => (col_widths res).getD j 0) =
      col_widths res := by
    have := map_range_getD_self (col_widths res)
    rw [col_widths_length] at this
    exact this
  rw [hsum, Nat.zero_add, Nat.mod_eq_of_lt (col_widths_sum_lt res hsize)]
  split
  · rename_i h
    have : col_widths res = [] := List.length_eq_zero.1 (by rw [col_widths_length, h])
    rw [this]
    rfl
  · rfl

/-- The text `printResults` writes for a rectangular result with at least one row: an empty
line, the header line, the rule, one line per row and the count of rows. -/
theorem printResults_eq (res : PGresult) (hrect : res.Rectangular) (hsize : res.Sized)
    (hrows : PQntuples res ≠ 0) (cout : List Nat) :
    printResults res cout = some (cout ++ bytes "\n" ++
      render_line (col_widths res) res.attNames ++ bytes "\n" ++
      List.replicate (col_widths res).sum 45 ++ bytes "\n" ++
      (res.tuples.map fun row => render_line (col_widths res) row ++ bytes "\n").flatten ++
      bytes "\nRows returned: " ++ decimal (PQntuples res) ++ bytes "\n") := by
  rw [printResults_raw res hrect hrows cout, header_line_eq res hsize,
    rows_text_eq res hrect hsize, total_width_eq res hsize]

/-! ## The display width of a line -/

theorem lead_count_pad_cell (c : Nat) (s rest : List Nat) (hs : lead_count s ≤ c)
    (hc : c < SIZE_MOD) :
    lead_count (pad_cell c s ++ rest) = c + lead_count rest := by
  have hw : utf8_display_width s = lead_count s :=
    utf8_display_width_eq s (Nat.lt_of_le_of_lt hs hc)
  have hz : 0 ∉ pad_cell c s := by
    intro h
    rcases List.mem_append.1 h with h | h
    · exact c_str_no_zero s h
    · exact no_zero_spaces _ h
  rw [lead_count_append _ _ hz]
  unfold pad_cell
  rw [lead_count_append _ _ (c_str_no_zero s), lead_count_c_str, lead_count_spaces, hw]
  omega

theorem lead_count_render_line (widths : List Nat) (cells : List (List Nat))
    (h : List.Forall₂ (fun c s => lead_count s ≤ c ∧ c < SIZE_MOD) widths cells) :
    lead_count (render_line widths cells) = widths.sum := by
  induction h with
  | nil => rfl
  | cons hab _ ih =>
    unfold render_line at *
    rw [List.zipWith_cons_cons, List.flatten_cons, lead_count_pad_cell _ _ _ hab.1 hab.2, ih,
      List.sum_cons]

theorem utf8_display_width_render_line (widths : List Nat) (cells : List (List Nat))
    (h : List.Forall₂ (fun c s => lead_count s ≤ c ∧ c < SIZE_MOD) widths cells)
    (hsum : widths.sum < SIZE_MOD) :
    utf8_display_width (render_line widths cells) = widths.sum := by
  rw [utf8_display_width_eq _ (by rw [lead_count_render_line _ _ h]; exact hsum),
    lead_count_render_line _ _ h]

theorem lead_count_eq_width (s : List Nat) (h : s.length ≤ INT_MAX) :
    lead_count s = utf8_display_width s := by
  rw [utf8_display_width_eq]
  have := lead_count_le s
  simp only [INT_MAX, SIZE_MOD] at *
  omega

/-- The header line is exactly as wide as the sum of the column widths. -/
theorem header_width (res : PGresult) (hsize : res.Sized) :
    utf8_display_width (render_line (col_widths res) res.attNames) = (col_widths res).sum := by
  apply utf8_display_width_render_line _ _ _ (col_widths_sum_lt res hsize)
  rw [List.forall₂_iff_get]
  refine ⟨col_widths_length res, fun j h1 h2 => ⟨?_, ?_⟩⟩
  · have hj : j < PQnfields res := h2
    have := name_fits res hsize j hj
    rw [getD_eq_getElem _ _ _ h1, getD_eq_getElem _ _ _ h2] at this
    have hl : (res.attNames[j]).length ≤ INT_MAX := hsize.2.2.1 _ (List.getElem_mem _)
    simp only [List.get_eq_getElem]
    rw [lead_count_eq_width _ hl]
    omega
  · simp only [List.get_eq_getElem]
    rw [← getD_eq_getElem _ _ 0 h1]
    exact col_width_lt res hsize j

/-- Every data-row line is exactly as wide as the sum of the column widths. -/
theorem row_width (res : PGresult) (hrect : res.Rectangular) (hsize : res.Sized)
    (row : List (List Nat)) (hrow : row ∈ res.tuples) :
    utf8_display_width (render_line (col_widths res) row) = (col_widths res).sum := by
  obtain ⟨i, hi, rfl⟩ := List.mem_iff_getElem.1 hrow
  have hi2 : i < PQntuples res := hi
  apply utf8_display_width_render_line _ _ _ (col_widths_sum_lt res hsize)
  rw [List.forall₂_iff_get]
  have hlen : (res.tuples[i]).length = PQnfields res := hrect _ hrow
  refine ⟨by rw [col_widths_length, hlen], fun j h1 h2 => ⟨?_, ?_⟩⟩
  · have hj : j < PQnfields res := by omega
    have := cell_fits res hsize i j hi2 hj
    rw [getD_eq_getElem _ _ _ hi, getD_eq_getElem _ _ _ h1, getD_eq_getElem _ _ _ h2] at this
    have hl : ((res.tuples[i])[j]).length ≤ INT_MAX :=
      hsize.2.2.2 _ hrow _ (List.getElem_mem _)
    simp only [List.get_eq_getElem]
    rw [lead_count_eq_width _ hl]
    omega
  · simp only [List.get_eq_getElem]
    rw [← getD_eq_getElem _ _ 0 h1]
    exact col_width_lt res hsize j

/-! ## The decimal count -/

theorem decimal_go_acc (fuel : Nat) : ∀ (n : Nat) (acc : List Nat),
    decimal.go fuel n acc = decimal.go fuel n [] ++ acc := by
  induction fuel with
  | zero => intro n acc; rfl
  | succ fuel ih =>
    intro n acc
    unfold decimal.go
    split
    · rfl
    · rw [ih (n / 10) ((48 + n % 10) :: acc), ih (n / 10) [48 + n % 10]]
      simp

theorem decimal_value_append (ds : List Nat) (d : Nat) :
    decimal_value (ds ++ [d]) = 10 * decimal_value ds + (d - 48) := by
  simp [decimal_value, List.foldl_append]

theorem decimal_value_go (fuel : Nat) : ∀ n, n < fuel →
    decimal_value (decimal.go fuel n []) = n := by
  induction fuel with
  | zero => intro n h; omega
  | succ fuel ih =>
    intro n h
    unfold decimal.go
    split
    · rename_i h0
      simp only [decimal_value, List.foldl_cons, List.foldl_nil]
      omega
    · rename_i h0
      rw [decimal_go_acc, decimal_value_append, ih (n / 10) (by omega)]
      omega

/-- The digits `printResults` writes for the count denote the count. -/
theorem decimal_value_decimal (n : Nat) : decimal_value (decimal n) = n :=
  decimal_value_go (n + 1) n (Nat.lt_succ_self n)

/-! ## Claims about `printResults` -/

/-- C3: for a rectangular result set (of sizes libpq can represent), the width that
`printResults` computes for column `j` is `m + 4`, where `m` is the maximum of the display
width of the name of column `j` and of the display widths of all cells of column `j`: `m`
bounds all of them and is one of them. -/
theorem printResults_colWidth (res : PGresult) (hrect : res.Rectangular) (hsize : res.Sized) :
    ∃ colWidth, printResults.colWidth res = some colWidth ∧
      colWidth.length = PQnfields res ∧
      ∀ j, j < PQnfields res → ∃ m, colWidth.getD j 0 = m + 4 ∧
        utf8_display_width (res.attNames.getD j []) ≤ m ∧
        (∀ row ∈ res.tuples, utf8_display_width (row.getD j []) ≤ m) ∧
        (m = utf8_display_width (res.attNames.getD j []) ∨
          ∃ row ∈ res.tuples, m = utf8_display_width (row.getD j [])) := by
  refine ⟨col_widths res, colWidth_eq res hrect, col_widths_length res, fun j hj => ?_⟩
  refine ⟨max_width (res.attNames.getD j []) (column res j),
    col_widths_getD_eq res hsize j hj, max_width_ge_name _ _, ?_, ?_⟩
  · intro row hrow
    exact max_width_ge_cell _ _ _ (List.mem_map.2 ⟨row, hrow, rfl⟩)
  · rcases max_width_attained (res.attNames.getD j []) (column res j) with h | ⟨v, hv, h⟩
    · exact Or.inl h
    · obtain ⟨row, hrow, rfl⟩ := List.mem_map.1 hv
      exact Or.inr ⟨row, hrow, h⟩

/-- Witness of C3: for columns "name", "price" and rows ("Lotion", "12"), ("Soap", "3") the
computed widths are 10 and 9. -/
theorem printResults_colWidth_witness :
    printResults.colWidth example_result = some [10, 9] ∧
      ∃ colWidth, printResults.colWidth example_result = some colWidth ∧
        colWidth.length = PQnfields example_result ∧
        ∀ j, j < PQnfields example_result → ∃ m, colWidth.getD j 0 = m + 4 ∧
          utf8_display_width (example_result.attNames.getD j []) ≤ m ∧
          (∀ row ∈ example_result.tuples, utf8_display_width (row.getD j []) ≤ m) ∧
          (m = utf8_display_width (example_result.attNames.getD j []) ∨
            ∃ row ∈ example_result.tuples, m = utf8_display_width (row.getD j [])) :=
  ⟨by decide, printResults_colWidth example_result (by decide) (by decide)⟩

/-- C4: for a rectangular result set with at least one row (of sizes libpq can represent),
`printResults` writes an empty line, the header line, a rule of `-` whose length is the sum of
the column widths, and one line per row; the header line and every data-row line are the names
or cells left-aligned and right-padded with spaces to their column widths, in column order, and
have display width exactly that sum before their line break. -/
theorem printResults_layout (res : PGresult) (hrect : res.Rectangular) (hsize : res.Sized)
    (hrows : 0 < PQntuples res) (cout : List Nat) :
    ∃ colWidth, printResults.colWidth res = some colWidth ∧
      printResults res cout = some (cout ++ bytes "\n" ++
        render_line colWidth res.attNames ++ bytes "\n" ++
        List.replicate colWidth.sum 45 ++ bytes "\n" ++
        (res.tuples.map fun row => render_line colWidth row ++ bytes "\n").flatten ++
        bytes "\nRows returned: " ++ decimal (PQntuples res) ++ bytes "\n") ∧
      utf8_display_width (render_line colWidth res.attNames) = colWidth.sum ∧
      ∀ row ∈ res.tuples, utf8_display_width (render_line colWidth row) = colWidth.sum :=
  ⟨col_widths res, colWidth_eq res hrect,
    printResults_eq res hrect hsize (Nat.pos_iff_ne_zero.1 hrows) cout,
    header_width res hsize, row_width res hrect hsize⟩

/-- Witness of C4: in the worked example the rule, the header line and both data-row lines are
19 positions wide. -/
theorem printResults_layout_witness :
    printResults example_result [] = some (bytes
      ("\nname      price    \n-------------------\nLotion    12       \n" ++
        "Soap      3        \n\nRows returned: 2\n")) ∧
      ∃ colWidth, printResults.colWidth example_result = some colWidth ∧
        printResults example_result [] = some ([] ++ bytes "\n" ++
          render_line colWidth example_result.attNames ++ bytes "\n" ++
          List.replicate colWidth.sum 45 ++ bytes "\n" ++
          (example_result.tuples.map fun row => render_line colWidth row ++ bytes "\n").flatten ++
          bytes "\nRows returned: " ++ decimal (PQntuples example_result) ++ bytes "\n") ∧
        utf8_display_width (render_line colWidth example_result.attNames) = colWidth.sum ∧
        ∀ row ∈ example_result.tuples,
          utf8_display_width (render_line colWidth row) = colWidth.sum :=
  ⟨by decide, printResults_layout example_result (by decide) (by decide) (by decide) []⟩

/-- The sum of the column widths of the worked example is 19. -/
theorem example_total_width : (col_widths example_result).sum = 19 := by decide

/-- C5: for a result set with zero rows, whatever its columns, `printResults` writes exactly
the "no data" notice and nothing else. -/
theorem printResults_no_rows (res : PGresult) (hrows : PQntuples res = 0) (cout : List Nat) :
    printResults res cout = some (cout ++ bytes "\nNo data found\n") := by
  simp [printResults, hrows]

/-- Witness of C5: a result with two columns and no row. -/
theorem printResults_no_rows_witness :
    printResults empty_result [] = some ([] ++ bytes "\nNo data found\n") :=
  printResults_no_rows empty_result (by decide) []

/-- C6: for a rectangular result set with `n ≥ 1` rows (of sizes libpq can represent), the
text `printResults` writes is the head of the table (empty line, header line, rule), then
exactly `n` data-row lines, one per row and in row order, then the trailer
"Rows returned: " followed by decimal digits that denote `n`. -/
theorem printResults_row_count (res : PGresult) (hrect : res.Rectangular) (hsize : res.Sized)
    (hrows : 0 < PQntuples res) (cout : List Nat) :
    ∃ head lines, printResults res cout = some (cout ++ head ++
        (lines.map fun line => line ++ bytes "\n").flatten ++
        (bytes "\nRows returned: " ++ decimal (PQntuples res) ++ bytes "\n")) ∧
      head = bytes "\n" ++ render_line (col_widths res) res.attNames ++ bytes "\n" ++
        List.replicate (col_widths res).sum 45 ++ bytes "\n" ∧
      lines = res.tuples.map (render_line (col_widths res)) ∧
      lines.length = PQntuples res ∧
      decimal_value (decimal (PQntuples res)) = PQntuples res := by
  refine ⟨_, _, ?_, rfl, rfl, by simp [PQntuples], decimal_value_decimal _⟩
  rw [printResults_eq res hrect hsize (Nat.pos_iff_ne_zero.1 hrows) cout]
  simp [List.map_map, Function.comp_def]

/-- Witness of C6: the worked example has two data-row lines and the trailer reports 2. -/
theorem printResults_row_count_witness :
    decimal (PQntuples example_result) = bytes "2" ∧
      ∃ head lines, printResults example_result [] = some ([] ++ head ++
          (lines.map fun line => line ++ bytes "\n").flatten ++
          (bytes "\nRows returned: " ++ decimal (PQntuples example_result) ++ bytes "\n")) ∧
        head = bytes "\n" ++ render_line (col_widths example_result) example_result.attNames ++
          bytes "\n" ++ List.replicate (col_widths example_result).sum 45 ++ bytes "\n" ∧
        lines = example_result.tuples.map (render_line (col_widths example_result)) ∧
        lines.length = PQntuples example_result ∧
        decimal_value (decimal (PQntuples example_result)) = PQntuples example_result :=
  ⟨by decide, printResults_row_count example_result (by decide) (by decide) (by decide) []⟩

/-- C10: for a rectangular result set (of sizes libpq can represent, with or without rows),
the `size_t` subtraction `colWidth[j] - w` of `printResults` never wraps around: for every
column name and every cell, its display width `w` satisfies `w + 4 ≤ colWidth[j]`, so the
number of spaces written after it is exactly `colWidth[j] - w` and at least 4. -/
theorem printResults_padding (res : PGresult) (hrect : res.Rectangular) (hsize : res.Sized) :
    ∃ colWidth, printResults.colWidth res = some colWidth ∧
      (∀ j name, j < PQnfields res → PQfname res j = some name →
        utf8_display_width (c_str name) + 4 ≤ colWidth.getD j 0 ∧
        size_sub (colWidth.getD j 0) (utf8_display_width (c_str name)) =
          colWidth.getD j 0 - utf8_display_width (c_str name) ∧
        4 ≤ size_sub (colWidth.getD j 0) (utf8_display_width (c_str name))) ∧
      ∀ i j cell, i < PQntuples res → j < PQnfields res → PQgetvalue res i j = some cell →
        utf8_display_width (c_str cell) + 4 ≤ colWidth.getD j 0 ∧
        size_sub (colWidth.getD j 0) (utf8_display_width (c_str cell)) =
          colWidth.getD j 0 - utf8_display_width (c_str cell) ∧
        4 ≤ size_sub (colWidth.getD j 0) (utf8_display_width (c_str cell)) := by
  have key : ∀ (j : Nat) (s : List Nat),
      utf8_display_width s + 4 ≤ (col_widths res).getD j 0 →
      utf8_display_width (c_str s) + 4 ≤ (col_widths res).getD j 0 ∧
      size_sub ((col_widths res).getD j 0) (utf8_display_width (c_str s)) =
        (col_widths res).getD j 0 - utf8_display_width (c_str s) ∧
      4 ≤ size_sub ((col_widths res).getD j 0) (utf8_display_width (c_str s)) := by
    intro j s h
    rw [utf8_display_width_c_str, size_sub_eq _ _ (by omega) (col_width_lt res hsize j)]
    exact ⟨h, rfl, by omega⟩
  refine ⟨col_widths res, colWidth_eq res hrect, ?_, ?_⟩
  · intro j name hj hname
    rw [PQfname_eq res j hj] at hname
    cases hname
    exact key j _ (name_fits res hsize j hj)
  · intro i j cell hi hj hcell
    rw [PQgetvalue_eq res hrect i j hi hj] at hcell
    cases hcell
    exact key j _ (cell_fits res hsize i j hi hj)

/-- Witness of C10: the worked example. -/
theorem printResults_padding_witness :
    ∃ colWidth, printResults.colWidth example_result = some colWidth ∧
      (∀ j name, j < PQnfields example_result → PQfname example_result j = some name →
        utf8_display_width (c_str name) + 4 ≤ colWidth.getD j 0 ∧
        size_sub (colWidth.getD j 0) (utf8_display_width (c_str name)) =
          colWidth.getD j 0 - utf8_display_width (c_str name) ∧
        4 ≤ size_sub (colWidth.getD j 0) (utf8_display_width (c_str name))) ∧
      ∀ i j cell, i < PQntuples example_result → j < PQnfields example_result →
        PQgetvalue example_result i j = some cell →
        utf8_display_width (c_str cell) + 4 ≤ colWidth.getD j 0 ∧
        size_sub (colWidth.getD j 0) (utf8_display_width (c_str cell)) =
          colWidth.getD j 0 - utf8_display_width (c_str cell) ∧
        4 ≤ size_sub (colWidth.getD j 0) (utf8_display_width (c_str cell)) :=
  printResults_padding example_result (by decide) (by decide)

/-! ## Rendering does not depend on what was written before -/

/-- A loop whose body only appends to the stream only appends to the stream. -/
theorem forLoop_appends (body : Nat → List Nat → Option (List Nat))
    (h : ∀ j, ∃ t : Option (List Nat), ∀ o, body j o = t.map fun x => o ++ x) :
    ∀ n i, ∃ r : Option (List Nat), ∀ o, forLoop body n i o = r.map fun x => o ++ x := by
  intro n
  induction n with
  | zero => intro i; exact ⟨some [], fun o => by simp [forLoop]⟩
  | succ n ih =>
    intro i
    obtain ⟨t, ht⟩ := h i
    obtain ⟨r, hr⟩ := ih (i + 1)
    cases t with
    | none => exact ⟨none, fun o => by simp [forLoop, ht]⟩
    | some x =>
      cases r with
      | none => exact ⟨none, fun o => by simp [forLoop, ht, hr]⟩
      | some y => exact ⟨some (x ++ y), fun o => by simp [forLoop, ht, hr]⟩

theorem cell_appends (f : List Nat → List Nat) (x : Option (List Nat)) :
    ∃ t : Option (List Nat), ∀ o : List Nat,
      (x.bind fun s => some (o ++ c_str s ++ f s)) = t.map fun y => o ++ y := by
  cases x with
  | none => exact ⟨none, fun o => rfl⟩
  | some s =>
    exact ⟨some (c_str s ++ f s), fun o => by
      simp only [Option.some_bind, Option.map_some', List.append_assoc]⟩

theorem line_appends (r : Option (List Nat)) (o : List Nat) :
    ((r.map fun x => o ++ x).bind fun cout => some (cout ++ bytes "\n")) =
      (r.map fun x => x ++ bytes "\n").map fun y => o ++ y := by
  cases r with
  | none => rfl
  | some x => simp only [Option.map_some', Option.some_bind, List.append_assoc]

/-- The text `printResults` appends is a function of the result set alone. -/
theorem printResults_appends (res : PGresult) :
    ∃ r : Option (List Nat), ∀ cout, printResults res cout = r.map fun x => cout ++ x := by
  by_cases hrows : PQntuples res = 0
  · exact ⟨some (bytes "\nNo data found\n"), fun cout => by simp [printResults, hrows]⟩
  · cases hcw : printResults.colWidth res with
    | none => exact ⟨none, fun cout => by simp [printResults, hrows, hcw]⟩
    | some colWidth =>
      obtain ⟨rh, hh⟩ := forLoop_appends
        (fun i cout =>
          (PQfname res i).bind fun name =>
          some (cout ++ c_str name ++ List.replicate
            (size_sub (colWidth.getD i 0) (utf8_display_width (c_str name))) 32))
        (fun j => cell_appends (fun name => List.replicate
          (size_sub (colWidth.getD j 0) (utf8_display_width (c_str name))) 32) (PQfname res j))
        (PQnfields res) 0
      obtain ⟨rr, hr⟩ := forLoop_appends
        (fun i cout =>
          (forLoop (fun j cout =>
              (PQgetvalue res i j).bind fun cell =>
              some (cout ++ c_str cell ++ List.replicate
                (size_sub (colWidth.getD j 0) (utf8_display_width (c_str cell))) 32))
            (PQnfields res) 0 cout).bind fun cout =>
          some (cout ++ bytes "\n"))
        (fun i => by
          obtain ⟨ri, hi⟩ := forLoop_appends
            (fun j cout =>
              (PQgetvalue res i j).bind fun cell =>
              some (cout ++ c_str cell ++ List.replicate
                (size_sub (colWidth.getD j 0) (utf8_display_width (c_str cell))) 32))
            (fun j => cell_appends (fun cell => List.replicate
              (size_sub (colWidth.getD j 0) (utf8_display_width (c_str cell))) 32)
              (PQgetvalue res i j))
            (PQnfields res) 0
          exact ⟨ri.map fun x => x ++ bytes "\n", fun o => by
            simp only [hi]
            exact line_appends ri o⟩)
        (PQntuples res) 0
      cases rh with
      | none =>
        exact ⟨none, fun cout => by
          simp only [printResults, hrows, if_false, hcw, Option.some_bind, hh, Option.map_none',
            Option.none_bind]⟩
      | some x =>
        cases rr with
        | none =>
          exact ⟨none, fun cout => by
            simp only [printResults, hrows, if_false, hcw, Option.some_bind, hh, forLoop_sum,
              hr, Option.map_some', Option.map_none', Option.none_bind]⟩
        | some y =>
          exact ⟨some (bytes "\n" ++ x ++ bytes "\n" ++ List.replicate
              (if PQnfields res = 0 then 0 else
                (0 + ((List.range' 0 (PQnfields res)).map fun j => colWidth.getD j 0).sum)
                  % SIZE_MOD) 45 ++ bytes "\n" ++ y ++
              bytes "\nRows returned: " ++ decimal (PQntuples res) ++ bytes "\n"),
            fun cout => by
              simp only [printResults, hrows, if_false, hcw, Option.some_bind, hh, forLoop_sum,
                hr, Option.map_some']
              simp only [List.append_assoc]⟩

/-- C9: rendering is deterministic and stateless. For every result set and every state of the
standard output, what `printResults` appends is what it appends to an empty output, and
rendering the same result set a second time appends the same bytes again. -/
theorem printResults_deterministic (res : PGresult) (cout : List Nat) :
    printResults res cout = (printResults res []).map (fun text => cout ++ text) ∧
      (printResults res cout).bind (printResults res) =
        (printResults res []).map (fun text => cout ++ text ++ text) := by
  obtain ⟨r, hr⟩ := printResults_appends res
  cases r with
  | none => simp [hr]
  | some x => simp [hr]

/-! ## Malformed UTF-8 -/

/-- C7, counterexample: a stray continuation byte is not counted. The malformed string
`41 80` has the width of `41` alone, and the string `80` has width 0. -/
theorem utf8_display_width_stray_continuation :
    ¬ (utf8_display_width [0x41, 0x80] = utf8_display_width [0x41] + 1) ∧
      utf8_display_width [0x80] = 0 := by
  decide

/-- C7, amended: `utf8_display_width` returns a value for every byte string, well-formed or
not: the number of bytes before the terminator whose top two bits are not `10`, modulo
`2 ^ 64`. A byte with top two bits `10` contributes nothing wherever it stands, also when it
does not follow a lead byte. -/
theorem utf8_display_width_malformed (pre post : List Nat) (b : Nat)
    (hb : b &&& 0xC0 = 0x80) :
    utf8_display_width (pre ++ b :: post) = utf8_display_width (pre ++ post) ∧
      ∀ p, utf8_display_width p = lead_count p % SIZE_MOD := by
  refine ⟨?_, utf8_display_width_eq_mod⟩
  rw [utf8_display_width_eq_mod, utf8_display_width_eq_mod]
  congr 1
  induction pre with
  | nil => exact lead_count_cons_cont b post hb
  | cons a pre ih =>
    by_cases h0 : a = 0
    · subst h0
      simp [lead_count, c_str]
    · by_cases ha : a &&& 0xC0 = 0x80
      · rw [List.cons_append, List.cons_append, lead_count_cons_cont _ _ ha,
          lead_count_cons_cont _ _ ha, ih]
      · rw [List.cons_append, List.cons_append, lead_count_cons_lead _ _ h0 ha,
          lead_count_cons_lead _ _ h0 ha, ih]

/-- Witness of C7, amended: the stray continuation byte `80` after `41` and before `42`, and
the truncated 3-byte sequence `E2 82`, which counts as one position. -/
theorem utf8_display_width_malformed_witness :
    utf8_display_width [0xE2, 0x82] = 1 ∧
      (utf8_display_width ([0x41] ++ 0x80 :: [0x42]) = utf8_display_width ([0x41] ++ [0x42]) ∧
        ∀ p, utf8_display_width p = lead_count p % SIZE_MOD) :=
  ⟨by decide, utf8_display_width_malformed [0x41] [0x42] 0x80 (by decide)⟩

/-! ## Failing queries -/

theorem printResults_defined (res : PGresult) (hrect : res.Rectangular) (cout : List Nat) :
    ∃ c, printResults res cout = some c := by
  by_cases hrows : PQntuples res = 0
  · exact ⟨_, printResults_no_rows res hrows cout⟩
  · exact ⟨_, printResults_raw res hrect hrows cout⟩

/-- Whether the query fails or not, `executeQuery` returns, leaves the error stream alone and
leaves the connection in the state `PQexec` produced. -/
theorem executeQuery_step {σ : Type} (db : Backend σ)
    (hrect : ∀ s q, PQresultStatus (db.PQexec s q).2 = ExecStatusType.PGRES_TUPLES_OK →
      (db.PQexec s q).2.Rectangular)
    (query description : List Nat) (w : World σ) :
    ∃ c, executeQuery db query description w =
      some { conn := (db.PQexec w.conn (c_str query)).1, cout := c, cerr := w.cerr } := by
  simp only [executeQuery]
  by_cases hst : PQresultStatus (db.PQexec w.conn (c_str query)).2 =
      ExecStatusType.PGRES_TUPLES_OK
  · obtain ⟨c, hc⟩ := printResults_defined _ (hrect _ _ hst)
      (w.cout ++ bytes "\n" ++ List.replicate 130 61 ++ bytes "\n" ++ description ++
        bytes "\n" ++ List.replicate 130 61 ++ bytes "\n")
    refine ⟨c, ?_⟩
    rw [if_neg (not_not_intro hst), hc, Option.some_bind]
  · exact ⟨w.cout ++ bytes "\n" ++ List.replicate 130 61 ++ bytes "\n" ++ description ++
      bytes "\n" ++ List.replicate 130 61 ++ bytes "\n" ++ bytes "ERROR: " ++
      c_str (db.PQerrorMessage (db.PQexec w.conn (c_str query)).1) ++ bytes "\n",
      by rw [if_pos hst]⟩

theorem bind_executeQuery {σ : Type} (db : Backend σ)
    (hrect : ∀ s q, PQresultStatus (db.PQexec s q).2 = ExecStatusType.PGRES_TUPLES_OK →
      (db.PQexec s q).2.Rectangular)
    (query description : List Nat) (w : World σ) (k : World σ → Option (World σ))
    (P : World σ → Prop)
    (hk : ∀ c, ∃ w', k (World.mk (db.PQexec w.conn (c_str query)).1 c w.cerr) = some w' ∧
      P w') :
    ∃ w', (executeQuery db query description w).bind k = some w' ∧ P w' := by
  obtain ⟨c, hc⟩ := executeQuery_step db hrect query description w
  rw [hc, Option.some_bind]
  exact hk c

/-- The run sends all thirteen queries in order, whichever of them fail, and never writes to
the error stream. -/
theorem runAll_continues {σ : Type} (db : Backend σ)
    (hrect : ∀ s q, PQresultStatus (db.PQexec s q).2 = ExecStatusType.PGRES_TUPLES_OK →
      (db.PQexec s q).2.Rectangular)
    (w : World σ) :
    ∃ w', runAll db w = some w' ∧ w'.cerr = w.cerr ∧
      w'.conn = all_queries.foldl (fun s q => (db.PQexec s (c_str q)).1) w.conn := by
  simp only [runAll, query1, query2, query3, query4, query5, query6, query7, query8, query9,
    query10, sqlInjections, Option.bind_assoc]
  refine bind_executeQuery db hrect _ _ _ _ _ (fun c1 => ?_)
  refine bind_executeQuery db hrect _ _ _ _ _ (fun c2 => ?_)
  refine bind_executeQuery db hrect _ _ _ _ _ (fun c3 => ?_)
  refine bind_executeQuery db hrect _ _ _ _ _ (fun c4 => ?_)
  refine bind_executeQuery db hrect _ _ _ _ _ (fun c5 => ?_)
  refine bind_executeQuery db hrect _ _ _ _ _ (fun c6 => ?_)
  refine bind_executeQuery db hrect _ _ _ _ _ (fun c7 => ?_)
  refine bind_executeQuery db hrect _ _ _ _ _ (fun c8 => ?_)
  refine bind_executeQuery db hrect _ _ _ _ _ (fun c9 => ?_)
  refine bind_executeQuery db hrect _ _ _ _ _ (fun c10 => ?_)
  refine bind_executeQuery db hrect _ _ _ _ _ (fun c11 => ?_)
  refine bind_executeQuery db hrect _ _ _ _ _ (fun c12 => ?_)
  refine bind_executeQuery db hrect _ _ _ _ _ (fun c13 => ?_)
  exact ⟨_, rfl, rfl, rfl⟩

set_option maxRecDepth 100000 in
/-- C8: on a query the collaborator rejects, `executeQuery` writes "ERROR: " and the failure
message to the standard output and leaves the error stream empty, although a per-query failure
is to be reported on the error stream, as the connection failure of the constructor is. -/
theorem executeQuery_failure_not_on_cerr :
    (executeQuery failing_backend (bytes "SELECT 1;") (bytes "QUERY")
        { conn := 0, cout := [], cerr := [] }).map (fun w => (w.cout, w.cerr)) =
      some (bytes "\n" ++ List.replicate 130 61 ++ bytes "\nQUERY\n" ++
        List.replicate 130 61 ++
        bytes "\nERROR: ERROR:  permission denied for table products\n\n", []) := by
  decide

/-- What the code does when the collaborator reports a failure for a query (a status other than
`PGRES_TUPLES_OK`): `executeQuery` appends the banner, "ERROR: ", the message and a line break
to the standard output, leaves the error stream as it was, prints no table and returns; and
`runAll` sends all thirteen queries in order whichever of them fail. -/
theorem executeQuery_failure {σ : Type} (db : Backend σ)
    (hrect : ∀ s q, PQresultStatus (db.PQexec s q).2 = ExecStatusType.PGRES_TUPLES_OK →
      (db.PQexec s q).2.Rectangular)
    (query description : List Nat) (w : World σ)
    (hfail : PQresultStatus (db.PQexec w.conn (c_str query)).2 ≠
      ExecStatusType.PGRES_TUPLES_OK) :
    executeQuery db query description w = some
        { conn := (db.PQexec w.conn (c_str query)).1
          cout := w.cout ++ bytes "\n" ++ List.replicate 130 61 ++ bytes "\n" ++ description ++
            bytes "\n" ++ List.replicate 130 61 ++ bytes "\n" ++ bytes "ERROR: " ++
            c_str (db.PQerrorMessage (db.PQexec w.conn (c_str query)).1) ++ bytes "\n"
          cerr := w.cerr } ∧
      ∃ w', runAll db w = some w' ∧ w'.cerr = w.cerr ∧
        w'.conn = all_queries.foldl (fun s q => (db.PQexec s (c_str q)).1) w.conn := by
  refine ⟨?_, runAll_continues db hrect w⟩
  simp only [executeQuery]
  rw [if_pos hfail]

/-- On a collaborator on which every query fails, the run still sends all 13 queries and the
error stream stays empty. -/
theorem executeQuery_failure_witness :
    executeQuery failing_backend (bytes "SELECT 1;") (bytes "QUERY")
        { conn := 0, cout := [], cerr := [] } = some
        { conn := 1
          cout := [] ++ bytes "\n" ++ List.replicate 130 61 ++ bytes "\n" ++ bytes "QUERY" ++
            bytes "\n" ++ List.replicate 130 61 ++ bytes "\n" ++ bytes "ERROR: " ++
            c_str (bytes "ERROR:  permission denied for table products\n") ++ bytes "\n"
          cerr := [] } ∧
      ∃ w', runAll failing_backend { conn := 0, cout := [], cerr := [] } = some w' ∧
        w'.cerr = [] ∧ w'.conn = 13 :=
  executeQuery_failure failing_backend (fun _ _ h => ExecStatusType.noConfusion h)
    (bytes "SELECT 1;") (bytes "QUERY") { conn := 0, cout := [], cerr := [] } (by decide)

end Cosmetics
